import Mathlib

/-
Shallow embedding of the link-deduplication and work-assignment core of
`backend/app.py` (Flask CSV/PDF review backend).

Conventions of the embedding:
* Python strings are `String`; `str.strip()` is `pyStrip` (drop leading and
  trailing whitespace characters, over the character list of the string).
* Timestamps (`datetime.now()`, `isoformat` strings) are `Nat` instants;
  a comparison `datetime.now() <= expires` becomes `now ≤ expires`.
  Within one request handler the several `datetime.now()` calls are modelled
  by the single parameter `now`.
* Python dicts keyed by strings (`GLOBAL_LINKS`, `USERS`) are association
  lists with in-place update and append-on-new, preserving insertion order.
* The `SESSIONS` dict is modelled as the list of its session values in
  insertion order: no claim inspects the random token keys.
* `pandas` frames are a list of rows together with flags recording which of
  the optional columns `Status` / `Feedback` / `Verified By` exist in the
  uploaded file; `df.iloc[a:b]` is drop/take, `isin` is list membership.
-/

namespace Viewer

/-- Python `str.strip()`: remove leading and trailing whitespace. -/
def pyStrip (s : String) : String :=
  ⟨((s.data.dropWhile Char.isWhitespace).reverse.dropWhile Char.isWhitespace).reverse⟩

/-- One value of the `GLOBAL_LINKS` dict (`register_links_globally` creates
these with the five fields below). -/
structure LinkEntry where
  first_uploaded_by : String
  first_uploaded_at : Nat
  upload_count : Nat
  last_uploaded_by : String
  last_uploaded_at : Nat
  deriving Repr, DecidableEq

/-- The `GLOBAL_LINKS` dict: association list from cleaned link to entry. -/
abbrev Registry := List (String × LinkEntry)

/-- Dict lookup `GLOBAL_LINKS[k]` / `k in GLOBAL_LINKS`. -/
def regFind : Registry → String → Option LinkEntry
  | [], _ => none
  | (k, v) :: rest, key => if k = key then some v else regFind rest key

/-- Dict store `GLOBAL_LINKS[k] = v`: update in place, else append. -/
def regInsert : Registry → String → LinkEntry → Registry
  | [], key, v => [(key, v)]
  | (k, w) :: rest, key, v =>
    if k = key then (key, v) :: rest else (k, w) :: regInsert rest key v

/-- One element of the `global_dupes` list built by `check_global_duplicates`:
the cleaned link plus a snapshot of the registry entry's provenance at lookup
time (the constant `"type"` tag is omitted). -/
structure GlobalDupe where
  link : String
  first_uploaded_by : String
  first_uploaded_at : Nat
  upload_count : Nat
  deriving Repr, DecidableEq

/-- Return value of `check_global_duplicates`.  The `within_file_dupes`
entries are dicts `{"link": l, "type": "within_file"}`; only the link varies,
so we keep the link.  The three `*_count` fields of the Python dict are the
lengths of these lists. -/
structure DedupReport where
  within_file_duplicates : List String
  global_duplicates : List GlobalDupe
  new_links : List String
  deriving Repr, DecidableEq

/-- The loop body state of `check_global_duplicates`: the three output lists
plus the `seen_in_current` dict (a set of cleaned links). -/
def checkGlobalDuplicatesLoop (registry : Registry)
    (within : List String) (globals : List GlobalDupe) (news : List String)
    (seen : List String) : List String → DedupReport
  | [] => ⟨within, globals, news⟩
  | link :: rest =>
    let link_clean := pyStrip link
    if link_clean = "" then
      checkGlobalDuplicatesLoop registry within globals news seen rest
    else if link_clean ∈ seen then
      checkGlobalDuplicatesLoop registry (within ++ [link_clean]) globals news seen rest
    else
      match regFind registry link_clean with
      | some e =>
          checkGlobalDuplicatesLoop registry within
            (globals ++ [⟨link_clean, e.first_uploaded_by, e.first_uploaded_at, e.upload_count⟩])
            news (seen ++ [link_clean]) rest
      | none =>
          checkGlobalDuplicatesLoop registry within globals (news ++ [link_clean])
            (seen ++ [link_clean]) rest

/-- `check_global_duplicates(links_list)` of `app.py` (lines 174-218), with the
global `GLOBAL_LINKS` passed explicitly. -/
def check_global_duplicates (links_list : List String) (registry : Registry) : DedupReport :=
  checkGlobalDuplicatesLoop registry [] [] [] [] links_list

/-- The loop of `register_links_globally`: threads the registry and the
`registered_count` counter. -/
def registerLinksLoop (username : String) (now : Nat) :
    List String → Registry → Nat → Registry × Nat
  | [], registry, count => (registry, count)
  | link :: rest, registry, count =>
    let link_clean := pyStrip link
    if link_clean = "" then
      registerLinksLoop username now rest registry count
    else
      match regFind registry link_clean with
      | some e =>
          registerLinksLoop username now rest
            (regInsert registry link_clean
              { e with upload_count := e.upload_count + 1,
                       last_uploaded_by := username, last_uploaded_at := now })
            count
      | none =>
          registerLinksLoop username now rest
            (regInsert registry link_clean ⟨username, now, 1, username, now⟩)
            (count + 1)

/-- `register_links_globally(links, username)` of `app.py` (lines 220-250):
returns the updated registry and the `registered_count` return value. -/
def register_links_globally (links : List String) (username : String) (now : Nat)
    (registry : Registry) : Registry × Nat :=
  registerLinksLoop username now links registry 0

/-- `total_duplicates = within_file_count + global_dup_count` as computed by
`upload_csv` (lines 1353-1362) and `admin_upload_and_assign` (lines 714-724),
reported to the caller as `duplicates_removed`. -/
def total_duplicates_removed (links : List String) (registry : Registry) : Nat :=
  let dup_check := check_global_duplicates links registry
  dup_check.within_file_duplicates.length + dup_check.global_duplicates.length

/-- One value of the `USERS` dict (only the fields the assignment code
reads: `username` and the display `name`). -/
structure User where
  username : String
  name : String
  deriving Repr, DecidableEq

/-- The `USERS` dict: association list from user id to user. -/
abbrev Users := List (String × User)

/-- `user_id in USERS` / `USERS[user_id]`. -/
def findUser : Users → String → Option User
  | [], _ => none
  | (k, u) :: rest, key => if k = key then some u else findUser rest key

/-- One row of an uploaded frame.  The `status`, `feedback` and `verified_by`
fields carry the content of the optional `Status` / `Feedback` / `Verified By`
columns; when the corresponding `Frame` flag is false the column does not
exist in the file and the field's content is irrelevant until the code adds
the column. -/
structure CsvRow where
  link : String
  status : String
  feedback : String
  verified_by : String
  deriving Repr, DecidableEq

/-- A `pandas` frame after the `link` column has been identified. -/
structure Frame where
  rows : List CsvRow
  hasStatus : Bool
  hasFeedback : Bool
  hasVerifiedBy : Bool
  deriving Repr, DecidableEq

/-- `df.iloc[a:b]` (0-based half-open slice, clamped like pandas). -/
def frameSlice (f : Frame) (a b : Nat) : Frame :=
  { f with rows := (f.rows.drop a).take (b - a) }

/-- The three `if col not in user_df.columns: user_df[col] = default` blocks
(`app.py` lines 766-771, 820-825, 1371-1376): each missing column is added
with its default, an existing column is left untouched. -/
def addDefaultCols (f : Frame) (name : String) : Frame :=
  let rows := f.rows
  let rows := if f.hasStatus then rows else rows.map fun r => { r with status := "" }
  let rows := if f.hasFeedback then rows else rows.map fun r => { r with feedback := "" }
  let rows := if f.hasVerifiedBy then rows else rows.map fun r => { r with verified_by := name }
  ⟨rows, true, true, true⟩

/-- `SESSION_TIMEOUT = timedelta(hours=24)`, in seconds. -/
def SESSION_TIMEOUT : Nat := 24 * 60 * 60

/-- One value of the `SESSIONS` dict (only the fields the claims read). -/
structure Session where
  username : String
  name : String
  data : List CsvRow
  assigned_by_admin : Bool
  expires_at : Nat
  deriving Repr, DecidableEq

/-- The `SESSIONS` dict, as its values in insertion order. -/
abbrev SessionStore := List Session

/-- One element of the admin `assignments` JSON list.  `percentage` is read
in percentage mode, `startRange` / `endRange` (Python `int`s, defaulting
to 0) in range mode. -/
structure ShareReq where
  userId : String
  percentage : Nat
  startRange : Int
  endRange : Int
  deriving Repr, DecidableEq

/-- The guard loop of `admin_upload_and_assign` (lines 671-684): for each
requested assignment whose user exists, collect the user's display name once
per live (`now ≤ expires_at`) admin-assigned session owned by that user. -/
def usersWithAssignments (users : Users) (store : SessionStore) (now : Nat) :
    List String → List String
  | [] => []
  | userId :: rest =>
    match findUser users userId with
    | none => usersWithAssignments users store now rest
    | some user =>
        (store.filter fun s =>
          s.username = user.username ∧ s.assigned_by_admin = true ∧ now ≤ s.expires_at).map
            (fun _ => user.name)
        ++ usersWithAssignments users store now rest

/-- The range-mode assignment loop (lines 738-799).  The session store is
mutated in place by the Python code, so a validation failure returns the
error message together with the store as already extended by the earlier
iterations. -/
def processRangeShares (users : Users) (total_pdfs : Nat) (df_clean : Frame) (now : Nat) :
    List ShareReq → SessionStore → Except (String × SessionStore) SessionStore
  | [], store => .ok store
  | a :: rest, store =>
    match findUser users a.userId with
    | none => processRangeShares users total_pdfs df_clean now rest store
    | some user =>
      if a.startRange < 1 ∨ a.endRange < 1 then
        .error ("Range values must start from 1. Invalid range for " ++ user.name, store)
      else if a.startRange > (total_pdfs : Int) ∨ a.endRange > (total_pdfs : Int) then
        .error ("Range exceeds total PDFs (" ++ toString total_pdfs ++ "). Invalid range for "
          ++ user.name, store)
      else if a.startRange > a.endRange then
        .error ("Start range cannot be greater than end range for " ++ user.name, store)
      else
        let start_idx := (a.startRange - 1).toNat
        let end_idx := a.endRange.toNat
        let user_df := addDefaultCols (frameSlice df_clean start_idx end_idx) user.name
        processRangeShares users total_pdfs df_clean now rest
          (store ++ [⟨user.username, user.name, user_df.rows, true, now + SESSION_TIMEOUT⟩])

/-- The percentage-mode assignment loop (lines 801-853), threading
`current_index`.  `pdfs_count = int(total_pdfs * percentage / 100)` is floor
division for the non-negative integer percentages of the requests. -/
def processPctShares (users : Users) (total_pdfs : Nat) (df_clean : Frame) (now : Nat) :
    List ShareReq → Nat → SessionStore → SessionStore
  | [], _, store => store
  | a :: rest, current_index, store =>
    match findUser users a.userId with
    | none => processPctShares users total_pdfs df_clean now rest current_index store
    | some user =>
      let pdfs_count := total_pdfs * a.percentage / 100
      let start_idx := current_index
      let end_idx := start_idx + pdfs_count
      let user_df := addDefaultCols (frameSlice df_clean start_idx end_idx) user.name
      processPctShares users total_pdfs df_clean now rest end_idx
        (store ++ [⟨user.username, user.name, user_df.rows, true, now + SESSION_TIMEOUT⟩])

/-- The two error shapes of `admin_upload_and_assign` relevant here: the
guard's 400 listing the conflicting display names, and a range-validation
400 with its message. -/
inductive ApiError where
  | conflict (names : List String)
  | validation (msg : String)
  deriving Repr, DecidableEq

/-- `assignment_type` form field. -/
inductive AssignMode where
  | percentage
  | range
  deriving Repr, DecidableEq

/-- Result of `admin_upload_and_assign`: the response error (if any) plus the
final `GLOBAL_LINKS` and `SESSIONS` state. -/
structure AdminOutcome where
  error : Option ApiError
  registry : Registry
  store : SessionStore
  deriving Repr, DecidableEq

/-- `admin_upload_and_assign` (lines 644-853): guard over the requested
users' live admin sessions, then global duplicate check, `df_clean` filter
(`df['link'].isin(new_links_list)` on the raw link values), registration of
the new links under actor `"admin"`, then the mode-specific assignment loop. -/
def admin_upload_and_assign (users : Users) (registry : Registry) (store : SessionStore)
    (frame : Frame) (assignments : List ShareReq) (mode : AssignMode) (now : Nat) :
    AdminOutcome :=
  let conflicting := usersWithAssignments users store now (assignments.map (·.userId))
  if conflicting ≠ [] then
    ⟨some (.conflict conflicting), registry, store⟩
  else
    let all_links := frame.rows.map (·.link)
    let dup_check := check_global_duplicates all_links registry
    let new_links_list := dup_check.new_links
    let df_clean : Frame := { frame with rows := frame.rows.filter fun r => r.link ∈ new_links_list }
    let registry' := (register_links_globally new_links_list "admin" now registry).1
    let total_pdfs := df_clean.rows.length
    match mode with
    | .range =>
        match processRangeShares users total_pdfs df_clean now assignments store with
        | .ok store' => ⟨none, registry', store'⟩
        | .error (msg, store') => ⟨some (.validation msg), registry', store'⟩
    | .percentage =>
        ⟨none, registry', processPctShares users total_pdfs df_clean now assignments 0 store⟩

/-- Result of `update_status` (ignoring the session-token plumbing). -/
inductive UpdateResult where
  | ok (rows : List CsvRow)
  | validationError
  | notFound
  deriving Repr, DecidableEq

/-- The matching loop of `update_status` (lines 1506-1512): the first row
whose stripped link equals the request link gets `Status` overwritten, and
`Feedback` overwritten only when the new status is `"Rejected"`. -/
def updateStatusLoop (link status feedback : String) : List CsvRow → Option (List CsvRow)
  | [] => none
  | item :: rest =>
    if pyStrip item.link = link then
      some (({ item with
                status := status,
                feedback := if status = "Rejected" then feedback else item.feedback }) :: rest)
    else
      (updateStatusLoop link status feedback rest).map (item :: ·)

/-- `update_status` (lines 1495-1515): strip the request fields, reject a
missing link or status, update the first matching row, 404 when none
matches. -/
def update_status (rows : List CsvRow) (linkRaw statusRaw feedbackRaw : String) :
    UpdateResult :=
  let link := pyStrip linkRaw
  let status := pyStrip statusRaw
  let feedback := pyStrip feedbackRaw
  if link = "" ∨ status = "" then .validationError
  else
    match updateStatusLoop link status feedback rows with
    | some rows' => .ok rows'
    | none => .notFound

/-! ## Specification-side definitions

These transcribe the spec's description of the classification pass
(spec §4.1) for comparison with the source definitions above. -/

/-- Spec §4.1's single left-to-right pass, written in the spec's terms: a
second or later occurrence of a nonempty trimmed link goes to
`within_file_duplicates`; a first occurrence goes to `global_duplicates`
with a provenance snapshot when present in the registry, else to
`new_links`; output lists in input order. -/
def classifySpecLoop (registry : Registry) : List String → List String → DedupReport
  | [], _ => ⟨[], [], []⟩
  | link :: rest, seen =>
    let c := pyStrip link
    if c = "" then classifySpecLoop registry rest seen
    else if c ∈ seen then
      let r := classifySpecLoop registry rest seen
      ⟨c :: r.within_file_duplicates, r.global_duplicates, r.new_links⟩
    else
      let r := classifySpecLoop registry rest (seen ++ [c])
      match regFind registry c with
      | some e =>
          ⟨r.within_file_duplicates,
           ⟨c, e.first_uploaded_by, e.first_uploaded_at, e.upload_count⟩ :: r.global_duplicates,
           r.new_links⟩
      | none => ⟨r.within_file_duplicates, r.global_duplicates, c :: r.new_links⟩

/-- The distinct nonempty trimmed links of a batch, in first-occurrence
order, continuing from an already-seen set. -/
def firstOccurrencesAux : List String → List String → List String
  | [], _ => []
  | link :: rest, seen =>
    let c := pyStrip link
    if c = "" ∨ c ∈ seen then firstOccurrencesAux rest seen
    else c :: firstOccurrencesAux rest (seen ++ [c])

/-- The distinct nonempty trimmed links of a batch in first-occurrence
order. -/
def firstOccurrences (links : List String) : List String :=
  firstOccurrencesAux links []

/-- Number of batch entries that are nonempty after trimming. -/
def countNonemptyTrimmed (links : List String) : Nat :=
  ((links.map pyStrip).filter fun s => s ≠ "").length

/-- The provenance snapshot taken of a registry entry found during
classification. -/
def snapshotOf (c : String) (e : LinkEntry) : GlobalDupe :=
  ⟨c, e.first_uploaded_by, e.first_uploaded_at, e.upload_count⟩

/-- Spec §4.3's percentage planning, written in the spec's terms: shares in
input order (unknown users omitted), `count = floor(total * percentage /
100)`, each reviewer getting the half-open slice `[cursor, cursor + count)`
of the new-links rows, the cursor advancing by `count`. -/
def pctSessionsSpec (users : Users) (total : Nat) (df : Frame) (now : Nat) :
    List ShareReq → Nat → List Session
  | [], _ => []
  | a :: rest, cursor =>
    match findUser users a.userId with
    | none => pctSessionsSpec users total df now rest cursor
    | some user =>
      let count := total * a.percentage / 100
      ⟨user.username, user.name,
        (addDefaultCols (frameSlice df cursor (cursor + count)) user.name).rows,
        true, now + SESSION_TIMEOUT⟩ ::
        pctSessionsSpec users total df now rest (cursor + count)

/-- Spec §4.3's range-share legality: a share passes the three range checks
of the range-mode loop. -/
def rangeOk (total : Nat) (a : ShareReq) : Prop :=
  1 ≤ a.startRange ∧ 1 ≤ a.endRange ∧ a.startRange ≤ (total : Int) ∧
    a.endRange ≤ (total : Int) ∧ a.startRange ≤ a.endRange

instance (total : Nat) (a : ShareReq) : Decidable (rangeOk total a) := by
  unfold rangeOk; infer_instance

/-- Ten-row frame (links `"1"` .. `"10"`, no optional columns) used by the
concrete witnesses. -/
def tenRowFrame : Frame :=
  ⟨[⟨"1", "", "", ""⟩, ⟨"2", "", "", ""⟩, ⟨"3", "", "", ""⟩, ⟨"4", "", "", ""⟩,
    ⟨"5", "", "", ""⟩, ⟨"6", "", "", ""⟩, ⟨"7", "", "", ""⟩, ⟨"8", "", "", ""⟩,
    ⟨"9", "", "", ""⟩, ⟨"10", "", "", ""⟩], false, false, false⟩

/-- Three-user directory used by the concrete witnesses. -/
def abcUsers : Users :=
  [("A", ⟨"a", "Alice"⟩), ("B", ⟨"b", "Bob"⟩), ("C", ⟨"c", "Cara"⟩)]

/-! ## Helper lemmas: the classification pass -/

lemma checkGlobalDuplicatesLoop_eq_spec (registry : Registry) :
    ∀ (rest : List String) (within : List String) (globals : List GlobalDupe)
      (news seen : List String),
    checkGlobalDuplicatesLoop registry within globals news seen rest =
      ⟨within ++ (classifySpecLoop registry rest seen).within_file_duplicates,
       globals ++ (classifySpecLoop registry rest seen).global_duplicates,
       news ++ (classifySpecLoop registry rest seen).new_links⟩ := by
  intro rest
  induction rest with
  | nil =>
      intro within globals news seen
      simp [checkGlobalDuplicatesLoop, classifySpecLoop]
  | cons x xs ih =>
      intro within globals news seen
      by_cases h1 : pyStrip x = ""
      · simp [checkGlobalDuplicatesLoop, classifySpecLoop, h1, ih]
      · by_cases h2 : pyStrip x ∈ seen
        · simp [checkGlobalDuplicatesLoop, classifySpecLoop, h1, h2, ih]
        · cases hf : regFind registry (pyStrip x) with
          | some e =>
              simp [checkGlobalDuplicatesLoop, classifySpecLoop, h1, h2, hf, ih]
          | none =>
              simp [checkGlobalDuplicatesLoop, classifySpecLoop, h1, h2, hf, ih]

/-- The source's classification equals the spec transcription. -/
lemma check_global_duplicates_eq_spec (links : List String) (registry : Registry) :
    check_global_duplicates links registry = classifySpecLoop registry links [] := by
  simp [check_global_duplicates, checkGlobalDuplicatesLoop_eq_spec]

lemma classifySpecLoop_new_links (registry : Registry) :
    ∀ (rest seen : List String),
    (classifySpecLoop registry rest seen).new_links =
      (firstOccurrencesAux rest seen).filter fun c => regFind registry c = none := by
  intro rest
  induction rest with
  | nil => intro seen; simp [classifySpecLoop, firstOccurrencesAux]
  | cons x xs ih =>
      intro seen
      by_cases h1 : pyStrip x = ""
      · simp [classifySpecLoop, firstOccurrencesAux, h1, ih]
      · by_cases h2 : pyStrip x ∈ seen
        · simp [classifySpecLoop, firstOccurrencesAux, h1, h2, ih]
        · cases hf : regFind registry (pyStrip x) with
          | some e => simp [classifySpecLoop, firstOccurrencesAux, h1, h2, hf, ih]
          | none => simp [classifySpecLoop, firstOccurrencesAux, h1, h2, hf, ih]

lemma classifySpecLoop_global_duplicates (registry : Registry) :
    ∀ (rest seen : List String),
    (classifySpecLoop registry rest seen).global_duplicates =
      (firstOccurrencesAux rest seen).filterMap
        fun c => (regFind registry c).map (snapshotOf c) := by
  intro rest
  induction rest with
  | nil => intro seen; simp [classifySpecLoop, firstOccurrencesAux]
  | cons x xs ih =>
      intro seen
      by_cases h1 : pyStrip x = ""
      · simp [classifySpecLoop, firstOccurrencesAux, h1, ih]
      · by_cases h2 : pyStrip x ∈ seen
        · simp [classifySpecLoop, firstOccurrencesAux, h1, h2, ih]
        · cases hf : regFind registry (pyStrip x) with
          | some e =>
              simp [classifySpecLoop, firstOccurrencesAux, h1, h2, hf, ih, snapshotOf]
          | none => simp [classifySpecLoop, firstOccurrencesAux, h1, h2, hf, ih]

lemma classifySpecLoop_length_sum (registry : Registry) :
    ∀ (rest seen : List String),
    (classifySpecLoop registry rest seen).within_file_duplicates.length +
      (classifySpecLoop registry rest seen).global_duplicates.length +
      (classifySpecLoop registry rest seen).new_links.length =
      countNonemptyTrimmed rest := by
  intro rest
  induction rest with
  | nil => intro seen; simp [classifySpecLoop, countNonemptyTrimmed]
  | cons x xs ih =>
      intro seen
      by_cases h1 : pyStrip x = ""
      · simpa [classifySpecLoop, countNonemptyTrimmed, h1] using ih seen
      · by_cases h2 : pyStrip x ∈ seen
        · have := ih seen
          simp [classifySpecLoop, countNonemptyTrimmed, h1, h2] at this ⊢
          omega
        · cases hf : regFind registry (pyStrip x) with
          | some e =>
              have := ih (seen ++ [pyStrip x])
              simp [classifySpecLoop, countNonemptyTrimmed, h1, h2, hf] at this ⊢
              omega
          | none =>
              have := ih (seen ++ [pyStrip x])
              simp [classifySpecLoop, countNonemptyTrimmed, h1, h2, hf] at this ⊢
              omega

lemma mem_firstOccurrencesAux :
    ∀ (rest seen : List String) (c : String), c ∈ firstOccurrencesAux rest seen →
      c ∉ seen ∧ c ≠ "" ∧ c ∈ rest.map pyStrip := by
  intro rest
  induction rest with
  | nil => intro seen c hc; simp [firstOccurrencesAux] at hc
  | cons x xs ih =>
      intro seen c hc
      by_cases h1 : pyStrip x = "" ∨ pyStrip x ∈ seen
      · simp only [firstOccurrencesAux, if_pos h1] at hc
        rcases ih seen c hc with ⟨hns, hne, hmem⟩
        exact ⟨hns, hne, by simp [hmem]⟩
      · simp only [firstOccurrencesAux, if_neg h1, List.mem_cons] at hc
        push_neg at h1
        rcases hc with hc | hc
        · subst hc; exact ⟨h1.2, h1.1, by simp⟩
        · rcases ih _ c hc with ⟨hns, hne, hmem⟩
          refine ⟨fun hmem' => hns ?_, hne, by simp [hmem]⟩
          simp [hmem']

lemma nodup_firstOccurrencesAux :
    ∀ (rest seen : List String), (firstOccurrencesAux rest seen).Nodup := by
  intro rest
  induction rest with
  | nil => intro seen; simp [firstOccurrencesAux]
  | cons x xs ih =>
      intro seen
      by_cases h1 : pyStrip x = "" ∨ pyStrip x ∈ seen
      · simp only [firstOccurrencesAux, if_pos h1]; exact ih seen
      · simp only [firstOccurrencesAux, if_neg h1, List.nodup_cons]
        refine ⟨fun hmem => ?_, ih _⟩
        rcases mem_firstOccurrencesAux _ _ _ hmem with ⟨hns, _, _⟩
        simp at hns

lemma toFinset_firstOccurrencesAux :
    ∀ (rest seen : List String),
      (firstOccurrencesAux rest seen).toFinset =
        ((rest.map pyStrip).filter fun s => s ≠ "").toFinset \ seen.toFinset := by
  intro rest
  induction rest with
  | nil => intro seen; simp [firstOccurrencesAux]
  | cons x xs ih =>
      intro seen
      by_cases h0 : pyStrip x = ""
      · have h1 : pyStrip x = "" ∨ pyStrip x ∈ seen := Or.inl h0
        simp only [firstOccurrencesAux, if_pos h1]
        rw [ih]
        ext y
        simp only [Finset.mem_sdiff, List.mem_toFinset, List.mem_filter, List.map_cons,
          List.filter_cons, List.mem_cons]
        by_cases hy : y = pyStrip x
        · subst hy; simp [h0]
        · simp [h0, hy]
      · by_cases h2 : pyStrip x ∈ seen
        · have h1 : pyStrip x = "" ∨ pyStrip x ∈ seen := Or.inr h2
          simp only [firstOccurrencesAux, if_pos h1]
          rw [ih]
          ext y
          simp only [Finset.mem_sdiff, List.mem_toFinset, List.mem_filter, List.map_cons,
            List.filter_cons, List.mem_cons]
          by_cases hy : y = pyStrip x
          · subst hy; simp [h0, h2]
          · simp [h0, hy]
        · have h1 : ¬ (pyStrip x = "" ∨ pyStrip x ∈ seen) := by tauto
          simp only [firstOccurrencesAux, if_neg h1]
          rw [List.toFinset_cons, ih]
          ext y
          simp only [Finset.mem_insert, Finset.mem_sdiff, List.mem_toFinset, List.mem_filter,
            List.map_cons, List.filter_cons, List.toFinset_append, List.mem_append,
            List.mem_cons, List.mem_singleton]
          by_cases hy : y = pyStrip x
          · subst hy; simp [h0, h2]
          · simp [h0, hy]

lemma firstOccurrences_length_eq_card (links : List String) :
    (firstOccurrences links).length =
      ((links.map pyStrip).filter fun s => s ≠ "").toFinset.card := by
  have hn := nodup_firstOccurrencesAux links []
  have hf := toFinset_firstOccurrencesAux links []
  calc (firstOccurrences links).length
      = (firstOccurrences links).toFinset.card := (List.toFinset_card_of_nodup hn).symm
    _ = _ := by rw [firstOccurrences, hf]; simp

lemma filter_none_filterMap_length (registry : Registry) :
    ∀ (l : List String),
      (l.filterMap fun c => (regFind registry c).map (snapshotOf c)).length +
        (l.filter fun c => regFind registry c = none).length = l.length := by
  intro l
  induction l with
  | nil => simp
  | cons x xs ih =>
      cases hf : regFind registry x with
      | some e => simp [List.filterMap_cons, List.filter_cons, hf]; omega
      | none => simp [List.filterMap_cons, List.filter_cons, hf]; omega

/-- The partition fact shared by the claims below: the three classification
lists have lengths summing to the number of nonempty trimmed entries. -/
lemma dedup_partition_lengths (links : List String) (registry : Registry) :
    (check_global_duplicates links registry).within_file_duplicates.length +
      (check_global_duplicates links registry).global_duplicates.length +
      (check_global_duplicates links registry).new_links.length =
      countNonemptyTrimmed links := by
  rw [check_global_duplicates_eq_spec]
  exact classifySpecLoop_length_sum registry links []

/-- The distinct-count fact shared by the claims below: `global_duplicates`
and `new_links` together have one entry per distinct nonempty trimmed link. -/
lemma dedup_distinct_lengths (links : List String) (registry : Registry) :
    (check_global_duplicates links registry).global_duplicates.length +
      (check_global_duplicates links registry).new_links.length =
      ((links.map pyStrip).filter fun s => s ≠ "").toFinset.card := by
  rw [check_global_duplicates_eq_spec, classifySpecLoop_new_links,
    classifySpecLoop_global_duplicates, ← firstOccurrences_length_eq_card]
  exact filter_none_filterMap_length registry (firstOccurrences links)

/-! ## Claims C1, C2, C3: the classification pass -/

/-- C1, as stated, is false: `within_file_duplicates` receives one entry per
second-and-later occurrence, so for the batch `["a", "a"]` against an empty
registry the three lengths sum to 2 while there is only 1 distinct nonempty
trimmed link. -/
theorem claim1_counterexample :
    ¬ ((check_global_duplicates ["a", "a"] []).within_file_duplicates.length +
        (check_global_duplicates ["a", "a"] []).global_duplicates.length +
        (check_global_duplicates ["a", "a"] []).new_links.length =
        (((["a", "a"] : List String).map pyStrip).filter fun s => s ≠ "").toFinset.card) := by
  decide

/-- C1 (amended): the three classification sequences have lengths summing to
the number of nonempty trimmed entries of the batch (occurrences, not
distinct links); the lengths of `global_duplicates` and `new_links` alone sum
to the number of distinct nonempty trimmed links. -/
theorem claim1_partition_counts (links : List String) (registry : Registry) :
    (check_global_duplicates links registry).within_file_duplicates.length +
      (check_global_duplicates links registry).global_duplicates.length +
      (check_global_duplicates links registry).new_links.length =
      countNonemptyTrimmed links ∧
    (check_global_duplicates links registry).global_duplicates.length +
      (check_global_duplicates links registry).new_links.length =
      ((links.map pyStrip).filter fun s => s ≠ "").toFinset.card :=
  ⟨dedup_partition_lengths links registry, dedup_distinct_lengths links registry⟩

/-- C2, as stated, is false: an entry that trims to the empty string counts
toward the raw batch length but is dropped from classification, so for the
batch `[""]` the code reports 0 duplicates removed while
`batch_length - count(new_links) = 1`. -/
theorem claim2_counterexample :
    ¬ (total_duplicates_removed [""] [] =
        ([""] : List String).length - (check_global_duplicates [""] []).new_links.length) := by
  decide

/-- C2 (amended): the reported `duplicates_removed` equals the number of
nonempty trimmed links of the batch minus the number of new links (entries
trimming to empty are excluded from the count). -/
theorem claim2_duplicates_removed (links : List String) (registry : Registry) :
    total_duplicates_removed links registry =
      countNonemptyTrimmed links - (check_global_duplicates links registry).new_links.length := by
  have h := dedup_partition_lengths links registry
  show (check_global_duplicates links registry).within_file_duplicates.length +
      (check_global_duplicates links registry).global_duplicates.length = _
  omega

/-- C3: the classification is the spec's single left-to-right pass: the
source function equals the spec transcription; `new_links` is exactly the
first-occurrence list restricted to links absent from the registry, and
`global_duplicates` is exactly the first-occurrence list restricted to links
present in the registry, each paired with the provenance snapshot of its
registry entry — both therefore in first-occurrence order of the batch. -/
theorem claim3_single_pass (links : List String) (registry : Registry) :
    check_global_duplicates links registry = classifySpecLoop registry links [] ∧
    (check_global_duplicates links registry).new_links =
      (firstOccurrences links).filter (fun c => regFind registry c = none) ∧
    (check_global_duplicates links registry).global_duplicates =
      (firstOccurrences links).filterMap
        (fun c => (regFind registry c).map (snapshotOf c)) := by
  refine ⟨check_global_duplicates_eq_spec links registry, ?_, ?_⟩
  · rw [check_global_duplicates_eq_spec, classifySpecLoop_new_links]; rfl
  · rw [check_global_duplicates_eq_spec, classifySpecLoop_global_duplicates]; rfl

/-! ## Helper lemmas: the registry and registration -/

lemma regFind_regInsert_self (r : Registry) (k : String) (v : LinkEntry) :
    regFind (regInsert r k v) k = some v := by
  induction r with
  | nil => simp [regInsert, regFind]
  | cons p rest ih =>
      obtain ⟨k', w⟩ := p
      by_cases h : k' = k
      · simp [regInsert, regFind, h]
      · simp [regInsert, regFind, h, ih]

lemma regFind_regInsert_ne (r : Registry) (k key : String) (v : LinkEntry)
    (h : k ≠ key) : regFind (regInsert r k v) key = regFind r key := by
  induction r with
  | nil => simp [regInsert, regFind, h]
  | cons p rest ih =>
      obtain ⟨k', w⟩ := p
      by_cases h' : k' = k
      · subst h'; simp [regInsert, regFind, h]
      · by_cases h'' : k' = key
        · simp [regInsert, regFind, h', h'', Ne.symm h]
        · simp [regInsert, regFind, h', h'', ih]

lemma registerLinksLoop_find_not_mem (u : String) (now : Nat) :
    ∀ (links : List String) (reg : Registry) (cnt : Nat) (key : String),
      key ∉ links.map pyStrip →
      regFind (registerLinksLoop u now links reg cnt).1 key = regFind reg key := by
  intro links
  induction links with
  | nil => intro reg cnt key _; simp [registerLinksLoop]
  | cons x xs ih =>
      intro reg cnt key hkey
      simp only [List.map_cons, List.mem_cons, not_or] at hkey
      obtain ⟨hkx, hkxs⟩ := hkey
      by_cases hx : pyStrip x = ""
      · simpa [registerLinksLoop, hx] using ih reg cnt key hkxs
      · cases hf : regFind reg (pyStrip x) with
        | some e =>
            rw [registerLinksLoop, if_neg hx, hf, ih _ _ _ hkxs,
              regFind_regInsert_ne _ _ _ _ (fun h => hkx h.symm)]
        | none =>
            rw [registerLinksLoop, if_neg hx, hf, ih _ _ _ hkxs,
              regFind_regInsert_ne _ _ _ _ (fun h => hkx h.symm)]

/-- The entry a registration run leaves for each nonempty-trimmed processed
link: created fresh when absent, count-incremented and `last_*`-updated when
present. -/
lemma registerLinksLoop_find_mem (u : String) (now : Nat) :
    ∀ (links : List String) (reg : Registry) (cnt : Nat) (L : String),
      ((links.map pyStrip).filter fun s => s ≠ "").Nodup →
      L ∈ links → pyStrip L ≠ "" →
      regFind (registerLinksLoop u now links reg cnt).1 (pyStrip L) =
        some (match regFind reg (pyStrip L) with
              | none => ⟨u, now, 1, u, now⟩
              | some e =>
                  ⟨e.first_uploaded_by, e.first_uploaded_at, e.upload_count + 1, u, now⟩) := by
  intro links
  induction links with
  | nil => intro reg cnt L _ hL; simp at hL
  | cons x xs ih =>
      intro reg cnt L hNodup hL hLne
      rcases List.mem_cons.mp hL with rfl | hL'
      · -- L is the head: its key is untouched by the rest of the loop
        have hkey : pyStrip L ∉ xs.map pyStrip := by
          intro hmem
          have h1 : pyStrip L ∈ (xs.map pyStrip).filter fun s => s ≠ "" :=
            List.mem_filter.mpr ⟨hmem, by simpa using hLne⟩
          have h2 : ((List.map pyStrip (L :: xs)).filter fun s => s ≠ "") =
              pyStrip L :: ((xs.map pyStrip).filter fun s => s ≠ "") := by
            simp [List.filter_cons, hLne]
          rw [h2] at hNodup
          exact (List.nodup_cons.mp hNodup).1 h1
        cases hf : regFind reg (pyStrip L) with
        | some e =>
            rw [registerLinksLoop, if_neg hLne, hf,
              registerLinksLoop_find_not_mem _ _ _ _ _ _ hkey, regFind_regInsert_self]
        | none =>
            rw [registerLinksLoop, if_neg hLne, hf,
              registerLinksLoop_find_not_mem _ _ _ _ _ _ hkey, regFind_regInsert_self]
      · -- L is in the tail
        have hNodupTail : ((xs.map pyStrip).filter fun s => s ≠ "").Nodup := by
          by_cases hx : pyStrip x = ""
          · simpa [List.filter_cons, hx] using hNodup
          · rw [show ((List.map pyStrip (x :: xs)).filter fun s => s ≠ "") =
                pyStrip x :: ((xs.map pyStrip).filter fun s => s ≠ "") by
                  simp [List.filter_cons, hx]] at hNodup
            exact (List.nodup_cons.mp hNodup).2
        by_cases hx : pyStrip x = ""
        · rw [registerLinksLoop, if_pos hx]
          exact ih reg cnt L hNodupTail hL' hLne
        · have hne : pyStrip x ≠ pyStrip L := by
            intro heq
            have h1 : pyStrip L ∈ (xs.map pyStrip).filter fun s => s ≠ "" :=
              List.mem_filter.mpr ⟨List.mem_map_of_mem pyStrip hL', by simpa using hLne⟩
            rw [show ((List.map pyStrip (x :: xs)).filter fun s => s ≠ "") =
                pyStrip x :: ((xs.map pyStrip).filter fun s => s ≠ "") by
                  simp [List.filter_cons, hx]] at hNodup
            rw [heq] at hNodup
            exact (List.nodup_cons.mp hNodup).1 h1
          cases hf : regFind reg (pyStrip x) with
          | some e =>
              rw [registerLinksLoop, if_neg hx, hf, ih _ _ L hNodupTail hL' hLne,
                regFind_regInsert_ne _ _ _ _ hne]
          | none =>
              rw [registerLinksLoop, if_neg hx, hf, ih _ _ L hNodupTail hL' hLne,
                regFind_regInsert_ne _ _ _ _ hne]

/-- The `registered_count` returned by a registration run: one per processed
link whose nonempty trimmed form was absent from the registry. -/
lemma registerLinksLoop_count (u : String) (now : Nat) :
    ∀ (links : List String) (reg : Registry) (cnt : Nat),
      ((links.map pyStrip).filter fun s => s ≠ "").Nodup →
      (registerLinksLoop u now links reg cnt).2 =
        cnt + (links.filter fun L =>
          pyStrip L ≠ "" ∧ regFind reg (pyStrip L) = none).length := by
  intro links
  induction links with
  | nil => intro reg cnt _; simp [registerLinksLoop]
  | cons x xs ih =>
      intro reg cnt hNodup
      have hNodupTail : ((xs.map pyStrip).filter fun s => s ≠ "").Nodup := by
        by_cases hx : pyStrip x = ""
        · simpa [List.filter_cons, hx] using hNodup
        · rw [show ((List.map pyStrip (x :: xs)).filter fun s => s ≠ "") =
              pyStrip x :: ((xs.map pyStrip).filter fun s => s ≠ "") by
                simp [List.filter_cons, hx]] at hNodup
          exact (List.nodup_cons.mp hNodup).2
      by_cases hx : pyStrip x = ""
      · rw [registerLinksLoop, if_pos hx, ih reg cnt hNodupTail]
        simp [List.filter_cons, hx]
      · have hcongr : ∀ (v : LinkEntry),
            (xs.filter fun L =>
              pyStrip L ≠ "" ∧ regFind (regInsert reg (pyStrip x) v) (pyStrip L) = none) =
            (xs.filter fun L => pyStrip L ≠ "" ∧ regFind reg (pyStrip L) = none) := by
          intro v
          apply List.filter_congr
          intro L hL
          by_cases hLne : pyStrip L = ""
          · simp [hLne]
          · have hne : pyStrip x ≠ pyStrip L := by
              intro heq
              have h1 : pyStrip L ∈ (xs.map pyStrip).filter fun s => s ≠ "" :=
                List.mem_filter.mpr ⟨List.mem_map_of_mem pyStrip hL, by simpa using hLne⟩
              rw [show ((List.map pyStrip (x :: xs)).filter fun s => s ≠ "") =
                  pyStrip x :: ((xs.map pyStrip).filter fun s => s ≠ "") by
                    simp [List.filter_cons, hx]] at hNodup
              rw [heq] at hNodup
              exact (List.nodup_cons.mp hNodup).1 h1
            simp [regFind_regInsert_ne _ _ _ _ hne]
        cases hf : regFind reg (pyStrip x) with
        | some e =>
            rw [registerLinksLoop, if_neg hx, hf, ih _ _ hNodupTail, hcongr]
            simp [List.filter_cons, hx, hf]
        | none =>
            rw [registerLinksLoop, if_neg hx, hf, ih _ _ hNodupTail, hcongr]
            simp [List.filter_cons, hx, hf]
            omega

/-! ## Claim C4: registration -/

/-- C4: registering a duplicate-free list of links creates, for each absent
link, an entry with `upload_count = 1` and first/last provenance `(actor,
now)`; for each present link it increments `upload_count` by exactly 1 and
updates only the `last_*` fields; the returned count is the number of newly
created entries; and a second registration of the same list increments each
entry's `upload_count` by exactly 1 and returns 0. -/
theorem claim4_registration (links : List String) (u : String) (now now' : Nat)
    (reg : Registry)
    (hNodup : ((links.map pyStrip).filter fun s => s ≠ "").Nodup) :
    (∀ L ∈ links, pyStrip L ≠ "" → regFind reg (pyStrip L) = none →
       regFind (register_links_globally links u now reg).1 (pyStrip L) =
         some ⟨u, now, 1, u, now⟩) ∧
    (∀ L ∈ links, pyStrip L ≠ "" → ∀ e, regFind reg (pyStrip L) = some e →
       regFind (register_links_globally links u now reg).1 (pyStrip L) =
         some ⟨e.first_uploaded_by, e.first_uploaded_at, e.upload_count + 1, u, now⟩) ∧
    (register_links_globally links u now reg).2 =
      (links.filter fun L => pyStrip L ≠ "" ∧ regFind reg (pyStrip L) = none).length ∧
    (register_links_globally links u now' (register_links_globally links u now reg).1).2
      = 0 ∧
    (∀ L ∈ links, pyStrip L ≠ "" → ∀ e,
       regFind (register_links_globally links u now reg).1 (pyStrip L) = some e →
       regFind (register_links_globally links u now'
          (register_links_globally links u now reg).1).1 (pyStrip L) =
         some ⟨e.first_uploaded_by, e.first_uploaded_at, e.upload_count + 1, u, now'⟩) := by
  have hfirstPresent : ∀ L ∈ links, pyStrip L ≠ "" →
      regFind (register_links_globally links u now reg).1 (pyStrip L) ≠ none := by
    intro L hL hLne
    rw [register_links_globally, registerLinksLoop_find_mem u now links reg 0 L hNodup hL hLne]
    simp
  refine ⟨?_, ?_, ?_, ?_, ?_⟩
  · intro L hL hLne hf
    rw [register_links_globally,
      registerLinksLoop_find_mem u now links reg 0 L hNodup hL hLne, hf]
  · intro L hL hLne e hf
    rw [register_links_globally,
      registerLinksLoop_find_mem u now links reg 0 L hNodup hL hLne, hf]
  · rw [register_links_globally, registerLinksLoop_count u now links reg 0 hNodup]
    omega
  · rw [register_links_globally,
      registerLinksLoop_count u now' links (register_links_globally links u now reg).1 0
        hNodup]
    have : (links.filter fun L => pyStrip L ≠ "" ∧
        regFind (register_links_globally links u now reg).1 (pyStrip L) = none) = [] := by
      rw [List.filter_eq_nil_iff]
      intro L hL
      by_cases hLne : pyStrip L = ""
      · simp [hLne]
      · simp only [decide_eq_true_eq, not_and]
        intro _
        exact hfirstPresent L hL hLne
    rw [this]
    rfl
  · intro L hL hLne e hf
    rw [register_links_globally,
      registerLinksLoop_find_mem u now' links (register_links_globally links u now reg).1 0 L
        hNodup hL hLne, hf]

/-- Witness for C4 at a concrete input: links `["a", " b "]` (one absent, one
already registered as `"b"`), actor `"u1"`, times 5 then 9. -/
theorem claim4_witness :
    ((((["a", " b "] : List String).map pyStrip).filter fun s => s ≠ "").Nodup) ∧
    regFind (register_links_globally ["a", " b "] "u1" 5
        [("b", ⟨"w", 1, 3, "w2", 2⟩)]).1 (pyStrip "a") = some ⟨"u1", 5, 1, "u1", 5⟩ ∧
    regFind (register_links_globally ["a", " b "] "u1" 5
        [("b", ⟨"w", 1, 3, "w2", 2⟩)]).1 (pyStrip " b ") = some ⟨"w", 1, 4, "u1", 5⟩ ∧
    (register_links_globally ["a", " b "] "u1" 5 [("b", ⟨"w", 1, 3, "w2", 2⟩)]).2 = 1 ∧
    (register_links_globally ["a", " b "] "u1" 9
        (register_links_globally ["a", " b "] "u1" 5
          [("b", ⟨"w", 1, 3, "w2", 2⟩)]).1).2 = 0 := by
  obtain ⟨h1, h2, h3, h4, _⟩ := claim4_registration ["a", " b "] "u1" 5 9
    [("b", ⟨"w", 1, 3, "w2", 2⟩)] (by decide)
  refine ⟨by decide, h1 "a" (by decide) (by decide) (by decide), ?_, ?_, h4⟩
  · have h := h2 " b " (by decide) (by decide) ⟨"w", 1, 3, "w2", 2⟩ (by decide)
    simpa using h
  · rw [h3]; decide

/-! ## Helper lemmas: percentage-mode planning -/

lemma addDefaultCols_rows_length (f : Frame) (name : String) :
    (addDefaultCols f name).rows.length = f.rows.length := by
  unfold addDefaultCols
  cases f.hasStatus <;> cases f.hasFeedback <;> cases f.hasVerifiedBy <;> simp

lemma addDefaultCols_map_link (f : Frame) (name : String) :
    (addDefaultCols f name).rows.map (fun r => r.link) = f.rows.map (fun r => r.link) := by
  unfold addDefaultCols
  cases f.hasStatus <;> cases f.hasFeedback <;> cases f.hasVerifiedBy <;>
    simp [Function.comp]

/-- The percentage loop is the spec-side plan appended to the incoming
session store. -/
lemma processPctShares_eq_spec (users : Users) (total : Nat) (df : Frame) (now : Nat) :
    ∀ (shares : List ShareReq) (cursor : Nat) (store : SessionStore),
      processPctShares users total df now shares cursor store =
        store ++ pctSessionsSpec users total df now shares cursor := by
  intro shares
  induction shares with
  | nil => intro cursor store; simp [processPctShares, pctSessionsSpec]
  | cons a rest ih =>
      intro cursor store
      cases hf : findUser users a.userId with
      | none => simp only [processPctShares, pctSessionsSpec, hf]; exact ih cursor store
      | some user =>
          simp only [processPctShares, pctSessionsSpec, hf]
          rw [ih]
          simp

lemma pctSessionsSpec_lengths (users : Users) (df : Frame) (now : Nat) :
    ∀ (shares : List ShareReq) (cursor : Nat),
      (∀ a ∈ shares, (findUser users a.userId).isSome) →
      cursor + (shares.map fun a => df.rows.length * a.percentage / 100).sum ≤
        df.rows.length →
      (pctSessionsSpec users df.rows.length df now shares cursor).map
          (fun s => s.data.length) =
        shares.map fun a => df.rows.length * a.percentage / 100 := by
  intro shares
  induction shares with
  | nil => intro cursor _ _; simp [pctSessionsSpec]
  | cons a rest ih =>
      intro cursor hU hBound
      cases hf : findUser users a.userId with
      | none => have := hU a (by simp); rw [hf] at this; simp at this
      | some user =>
          simp only [pctSessionsSpec, hf, List.map_cons]
          simp only [List.map_cons, List.sum_cons] at hBound
          simp only [List.cons.injEq]
          constructor
          · rw [addDefaultCols_rows_length]
            simp only [frameSlice]
            rw [List.length_take, List.length_drop]
            omega
          · exact ih _ (fun b hb => hU b (by simp [hb])) (by omega)

lemma pctSessionsSpec_join (users : Users) (df : Frame) (now : Nat) :
    ∀ (shares : List ShareReq) (cursor : Nat),
      (∀ a ∈ shares, (findUser users a.userId).isSome) →
      ((pctSessionsSpec users df.rows.length df now shares cursor).map
          (fun s => s.data.map (fun r => r.link))).flatten =
        ((df.rows.map (fun r => r.link)).drop cursor).take
          ((shares.map fun a => df.rows.length * a.percentage / 100).sum) := by
  intro shares
  induction shares with
  | nil => intro cursor _; simp [pctSessionsSpec]
  | cons a rest ih =>
      intro cursor hU
      cases hf : findUser users a.userId with
      | none => have := hU a (by simp); rw [hf] at this; simp at this
      | some user =>
          simp only [pctSessionsSpec, hf, List.map_cons, List.flatten_cons, List.sum_cons]
          rw [ih _ (fun b hb => hU b (by simp [hb]))]
          rw [addDefaultCols_map_link]
          simp only [frameSlice]
          rw [List.map_take, List.map_drop, List.take_add, List.drop_drop]
          congr 1
          · congr 1
            omega

lemma sum_pct_counts_le (t : Nat) :
    ∀ (ps : List Nat), (ps.map fun p => t * p / 100).sum ≤ t * ps.sum / 100 := by
  intro ps
  induction ps with
  | nil => simp
  | cons p rest ih =>
      simp only [List.map_cons, List.sum_cons, Nat.mul_add]
      calc t * p / 100 + (rest.map fun q => t * q / 100).sum
          ≤ t * p / 100 + t * rest.sum / 100 := by omega
        _ ≤ (t * p + t * rest.sum) / 100 := Nat.add_div_le_add_div _ _ _

/-! ## Claim C5: percentage-mode planning -/

/-- C5: in percentage mode (all requested users known, percentages summing
to at most 100) the loop appends to the store one session per share in input
order; share `i` receives exactly `floor(total * percentage_i / 100)` rows;
the assigned rows, concatenated in share order, are exactly the first
`sum of counts` new-links rows (so each share gets the contiguous half-open
slice `[cursor, cursor + count_i)` with the cursor advancing by `count_i`);
the trailing remainder beyond `sum of counts ≤ total` is assigned to nobody,
and no error is possible (the loop is total). -/
theorem claim5_percentage_planning (users : Users) (df : Frame) (now : Nat)
    (shares : List ShareReq)
    (hU : ∀ a ∈ shares, (findUser users a.userId).isSome)
    (hSum : (shares.map (fun a => a.percentage)).sum ≤ 100) :
    (∀ store : SessionStore,
       processPctShares users df.rows.length df now shares 0 store =
         store ++ pctSessionsSpec users df.rows.length df now shares 0) ∧
    (pctSessionsSpec users df.rows.length df now shares 0).map
        (fun s => s.data.length) =
      shares.map (fun a => df.rows.length * a.percentage / 100) ∧
    ((pctSessionsSpec users df.rows.length df now shares 0).map
        (fun s => s.data.map (fun r => r.link))).flatten =
      (df.rows.map (fun r => r.link)).take
        ((shares.map fun a => df.rows.length * a.percentage / 100).sum) ∧
    (shares.map fun a => df.rows.length * a.percentage / 100).sum ≤ df.rows.length := by
  have hle : (shares.map fun a => df.rows.length * a.percentage / 100).sum ≤
      df.rows.length := by
    have h1 := sum_pct_counts_le df.rows.length (shares.map (fun a => a.percentage))
    rw [List.map_map] at h1
    have h2 : df.rows.length * (shares.map (fun a => a.percentage)).sum / 100 ≤
        df.rows.length * 100 / 100 :=
      Nat.div_le_div_right (Nat.mul_le_mul_left _ hSum)
    have h3 : df.rows.length * 100 / 100 = df.rows.length := by omega
    calc (shares.map fun a => df.rows.length * a.percentage / 100).sum
        = ((shares.map (fun a => a.percentage)).map
            (fun p => df.rows.length * p / 100)).sum := by rw [List.map_map]; rfl
      _ ≤ df.rows.length := by rw [List.map_map]; omega
  refine ⟨fun store => processPctShares_eq_spec users df.rows.length df now shares 0 store,
    pctSessionsSpec_lengths users df now shares 0 hU (by omega), ?_, hle⟩
  have h := pctSessionsSpec_join users df now shares 0 hU
  simpa using h

/-- Witness for C5 at the spec's own example: 10 rows, shares 50% / 30% /
20% give counts [5, 3, 2]. -/
theorem claim5_witness :
    (∀ a ∈ [(⟨"A", 50, 0, 0⟩ : ShareReq), ⟨"B", 30, 0, 0⟩, ⟨"C", 20, 0, 0⟩],
       (findUser abcUsers a.userId).isSome) ∧
    (([(⟨"A", 50, 0, 0⟩ : ShareReq), ⟨"B", 30, 0, 0⟩, ⟨"C", 20, 0, 0⟩].map
        (fun a => a.percentage)).sum ≤ 100) ∧
    (pctSessionsSpec abcUsers tenRowFrame.rows.length tenRowFrame 0
        [⟨"A", 50, 0, 0⟩, ⟨"B", 30, 0, 0⟩, ⟨"C", 20, 0, 0⟩] 0).map
        (fun s => s.data.length) =
      [(⟨"A", 50, 0, 0⟩ : ShareReq), ⟨"B", 30, 0, 0⟩, ⟨"C", 20, 0, 0⟩].map
        (fun a => tenRowFrame.rows.length * a.percentage / 100) :=
  ⟨by decide, by decide,
    (claim5_percentage_planning abcUsers tenRowFrame 0
      [⟨"A", 50, 0, 0⟩, ⟨"B", 30, 0, 0⟩, ⟨"C", 20, 0, 0⟩] (by decide) (by decide)).2.1⟩

/-! ## Claim C6: range-mode validation -/

/-- C6, as stated, is false in its no-partial-assignment part: a batch whose
first share is valid and whose second share is out of range fails with the
range validation error, yet the first share's session is already in the
session store when the handler returns. -/
theorem claim6_counterexample :
    (admin_upload_and_assign abcUsers [] []
        ⟨[⟨"x", "", "", ""⟩, ⟨"y", "", "", ""⟩], false, false, false⟩
        [⟨"A", 0, 1, 2⟩, ⟨"B", 0, 5, 9⟩] .range 0).error =
      some (.validation "Range exceeds total PDFs (2). Invalid range for Bob") ∧
    (admin_upload_and_assign abcUsers [] []
        ⟨[⟨"x", "", "", ""⟩, ⟨"y", "", "", ""⟩], false, false, false⟩
        [⟨"A", 0, 1, 2⟩, ⟨"B", 0, 5, 9⟩] .range 0).store ≠ [] := by
  decide

/-- C6 (amended): a range share with `start_range < 1`, `end_range < 1`,
`start_range > total`, `end_range > total` or `start_range > end_range`
causes a `ValidationError` on the first violating share in input order and
stops the loop — no session is created for the violating share or any later
share — but the sessions already created for valid earlier shares remain in
the session store. -/
theorem claim6_range_validation (users : Users) (total : Nat) (df : Frame) (now : Nat)
    (store : SessionStore) (pre rest : List ShareReq) (bad : ShareReq) (u : User)
    (hpre : ∀ a ∈ pre, findUser users a.userId = none ∨ rangeOk total a)
    (hbadU : findUser users bad.userId = some u)
    (hbad : ¬ rangeOk total bad) :
    ∃ msg S, processRangeShares users total df now pre store = .ok S ∧
      processRangeShares users total df now (pre ++ bad :: rest) store =
        .error (msg, S) := by
  induction pre generalizing store with
  | nil =>
      by_cases h1 : bad.startRange < 1 ∨ bad.endRange < 1
      · refine ⟨"Range values must start from 1. Invalid range for " ++ u.name,
          store, rfl, ?_⟩
        simp [processRangeShares, hbadU, h1]
      · by_cases h2 : bad.startRange > (total : Int) ∨ bad.endRange > (total : Int)
        · refine ⟨"Range exceeds total PDFs (" ++ toString total ++
            "). Invalid range for " ++ u.name, store, rfl, ?_⟩
          simp [processRangeShares, hbadU, h1, h2]
        · have h3 : bad.startRange > bad.endRange := by
            unfold rangeOk at hbad
            push_neg at h1 h2
            omega
          refine ⟨"Start range cannot be greater than end range for " ++ u.name,
            store, rfl, ?_⟩
          simp [processRangeShares, hbadU, h1, h2, h3]
  | cons a pre' ih =>
      cases hf : findUser users a.userId with
      | none =>
          have h := ih store (fun b hb => hpre b (by simp [hb]))
          simpa [processRangeShares, hf] using h
      | some usr =>
          have hok : rangeOk total a := by
            rcases hpre a (by simp) with h | h
            · rw [hf] at h; exact absurd h (by simp)
            · exact h
          obtain ⟨hs1, he1, hst, het, hse⟩ := hok
          have h1 : ¬ (a.startRange < 1 ∨ a.endRange < 1) := by omega
          have h2 : ¬ (a.startRange > (total : Int) ∨ a.endRange > (total : Int)) := by
            omega
          have h3 : ¬ (a.startRange > a.endRange) := by omega
          have h := ih
            (store ++ [⟨usr.username, usr.name,
              (addDefaultCols (frameSlice df (a.startRange - 1).toNat a.endRange.toNat)
                usr.name).rows, true, now + SESSION_TIMEOUT⟩])
            (fun b hb => hpre b (by simp [hb]))
          simpa [processRangeShares, hf, h1, h2, h3] using h

/-- Witness for C6 at a concrete input: share `{A, 1..2}` is valid, share
`{B, 5..9}` violates the bound `total = 2`. -/
theorem claim6_witness :
    ((∀ a ∈ [(⟨"A", 0, 1, 2⟩ : ShareReq)],
        findUser abcUsers a.userId = none ∨ rangeOk 2 a) ∧
      findUser abcUsers (ShareReq.userId ⟨"B", 0, 5, 9⟩) = some ⟨"b", "Bob"⟩ ∧
      ¬ rangeOk 2 ⟨"B", 0, 5, 9⟩) ∧
    (∃ msg S,
      processRangeShares abcUsers 2 tenRowFrame 0 [⟨"A", 0, 1, 2⟩] [] = .ok S ∧
      processRangeShares abcUsers 2 tenRowFrame 0
        ([(⟨"A", 0, 1, 2⟩ : ShareReq)] ++ ⟨"B", 0, 5, 9⟩ :: []) [] = .error (msg, S)) :=
  ⟨⟨by decide, by decide, by decide⟩,
    claim6_range_validation abcUsers 2 tenRowFrame 0 [] [(⟨"A", 0, 1, 2⟩ : ShareReq)] []
      ⟨"B", 0, 5, 9⟩ ⟨"b", "Bob"⟩ (by decide) (by decide) (by decide)⟩

/-! ## Claim C7: the admin-assignment guard -/

/-- The guard collects nothing when no targeted user owns a live
admin-assigned session. -/
lemma usersWithAssignments_eq_nil (users : Users) (store : SessionStore) (now : Nat) :
    ∀ (uids : List String),
      (∀ uid ∈ uids, ∀ u, findUser users uid = some u →
        ∀ s ∈ store, ¬ (s.username = u.username ∧ s.assigned_by_admin = true ∧
          now ≤ s.expires_at)) →
      usersWithAssignments users store now uids = [] := by
  intro uids
  induction uids with
  | nil => intro _; simp [usersWithAssignments]
  | cons uid rest ih =>
      intro h
      cases hf : findUser users uid with
      | none =>
          simp only [usersWithAssignments, hf]
          exact ih fun b hb => h b (by simp [hb])
      | some u =>
          simp only [usersWithAssignments, hf]
          rw [ih fun b hb => h b (by simp [hb])]
          have hfe : store.filter (fun s => decide (s.username = u.username ∧
              s.assigned_by_admin = true ∧ now ≤ s.expires_at)) = [] := by
            rw [List.filter_eq_nil_iff]
            intro s hs
            simpa using h uid (by simp) u hf s hs
          rw [hfe]
          simp

/-- C7: when any targeted reviewer holds a live admin-assigned session, the
admin upload-and-assign fails with the single conflict error listing every
collected conflicting display name and leaves the registry and session
store unchanged (the guard runs before the duplicate check, registration and
assignment); and when no targeted reviewer holds such a session the guard
collects nothing, however many live sessions other users hold. -/
theorem claim7_admin_guard (users : Users) (registry : Registry) (store : SessionStore)
    (frame : Frame) (shares : List ShareReq) (mode : AssignMode) (now : Nat) :
    (usersWithAssignments users store now (shares.map (fun a => a.userId)) ≠ [] →
      admin_upload_and_assign users registry store frame shares mode now =
        ⟨some (.conflict
            (usersWithAssignments users store now (shares.map (fun a => a.userId)))),
         registry, store⟩) ∧
    ((∀ uid ∈ shares.map (fun a => a.userId), ∀ u, findUser users uid = some u →
        ∀ s ∈ store, ¬ (s.username = u.username ∧ s.assigned_by_admin = true ∧
          now ≤ s.expires_at)) →
      usersWithAssignments users store now (shares.map (fun a => a.userId)) = []) := by
  constructor
  · intro h
    simp only [admin_upload_and_assign]
    rw [if_pos h]
  · intro h
    exact usersWithAssignments_eq_nil users store now _ h

/-- Witness for C7 at a concrete input: Alice holds a live admin-assigned
session at `now = 5`, so a batch targeting her is rejected unchanged. -/
theorem claim7_witness :
    (usersWithAssignments abcUsers [⟨"a", "Alice", [], true, 100⟩] 5
        ([(⟨"A", 50, 0, 0⟩ : ShareReq)].map (fun a => a.userId)) ≠ []) ∧
    admin_upload_and_assign abcUsers [] [⟨"a", "Alice", [], true, 100⟩]
        ⟨[⟨"x", "", "", ""⟩], false, false, false⟩ [⟨"A", 50, 0, 0⟩] .percentage 5 =
      ⟨some (.conflict (usersWithAssignments abcUsers [⟨"a", "Alice", [], true, 100⟩] 5
          ([(⟨"A", 50, 0, 0⟩ : ShareReq)].map (fun a => a.userId)))),
       [], [⟨"a", "Alice", [], true, 100⟩]⟩ :=
  ⟨by decide,
    (claim7_admin_guard abcUsers [] [⟨"a", "Alice", [], true, 100⟩]
      ⟨[⟨"x", "", "", ""⟩], false, false, false⟩ [⟨"A", 50, 0, 0⟩] .percentage 5).1
      (by decide)⟩

/-! ## Claim C8: status update and feedback -/

lemma updateStatusLoop_first_match (link status feedback : String) :
    ∀ (pre : List CsvRow) (r : CsvRow) (rest : List CsvRow),
      (∀ p ∈ pre, pyStrip p.link ≠ link) → pyStrip r.link = link →
      updateStatusLoop link status feedback (pre ++ r :: rest) =
        some (pre ++ { r with
          status := status
          feedback := if status = "Rejected" then feedback else r.feedback } :: rest) := by
  intro pre
  induction pre with
  | nil =>
      intro r rest _ hr
      simp [updateStatusLoop, hr]
  | cons p ps ih =>
      intro r rest hpre hr
      have hp : ¬ (pyStrip p.link = link) := hpre p (by simp)
      simp [updateStatusLoop, if_neg hp,
        ih r rest (fun q hq => hpre q (by simp [hq])) hr]

/-- C8, as stated, is false: only the `Rejected` branch writes `Feedback`, so
a row rejected with feedback `"bad scan"` and then set to `Accepted` keeps
feedback `"bad scan"` instead of being cleared to `""`. -/
theorem claim8_counterexample :
    update_status [⟨"a", "", "", "X"⟩] "a" "Rejected" "bad scan" =
      .ok [⟨"a", "Rejected", "bad scan", "X"⟩] ∧
    update_status [⟨"a", "Rejected", "bad scan", "X"⟩] "a" "Accepted" "" =
      .ok [⟨"a", "Accepted", "bad scan", "X"⟩] ∧
    ("bad scan" : String) ≠ "" := by
  decide

/-- C8 (amended): a status update matching a row by link overwrites the
row's `Status` with the supplied status; it sets `Feedback` to the supplied
text when the new status is `Rejected` and leaves the previous `Feedback`
unchanged (rather than clearing it) for any other status. -/
theorem claim8_feedback_update (pre rest : List CsvRow) (r : CsvRow)
    (link status feedback : String)
    (hlink : pyStrip link ≠ "") (hstatus : pyStrip status ≠ "")
    (hpre : ∀ p ∈ pre, pyStrip p.link ≠ pyStrip link)
    (hr : pyStrip r.link = pyStrip link) :
    update_status (pre ++ r :: rest) link status feedback =
      .ok (pre ++ { r with
        status := pyStrip status
        feedback := if pyStrip status = "Rejected" then pyStrip feedback
                    else r.feedback } :: rest) := by
  unfold update_status
  rw [if_neg (by simp [hlink, hstatus])]
  rw [updateStatusLoop_first_match (pyStrip link) (pyStrip status) (pyStrip feedback)
    pre r rest hpre hr]

/-- Witness for C8 at a concrete input: setting the matching row to
`Accepted` leaves its previous feedback `"old"` in place. -/
theorem claim8_witness :
    (pyStrip "a" ≠ "" ∧ pyStrip "Accepted" ≠ "" ∧
      (∀ p ∈ [(⟨"b", "", "", "X"⟩ : CsvRow)], pyStrip p.link ≠ pyStrip "a") ∧
      pyStrip (CsvRow.link ⟨"a", "Rejected", "old", "X"⟩) = pyStrip "a") ∧
    update_status [⟨"b", "", "", "X"⟩, ⟨"a", "Rejected", "old", "X"⟩] "a" "Accepted" "" =
      .ok [⟨"b", "", "", "X"⟩,
        { (⟨"a", "Rejected", "old", "X"⟩ : CsvRow) with
          status := pyStrip "Accepted"
          feedback := if pyStrip "Accepted" = "Rejected" then pyStrip ""
                      else CsvRow.feedback ⟨"a", "Rejected", "old", "X"⟩ }] :=
  ⟨⟨by decide, by decide, by decide, by decide⟩,
    claim8_feedback_update [⟨"b", "", "", "X"⟩] [] ⟨"a", "Rejected", "old", "X"⟩
      "a" "Accepted" "" (by decide) (by decide) (by decide) (by decide)⟩

/-! ## Claim C9: materialized rows -/

/-- Rows of a sliced frame whose three optional columns are all missing get
exactly the defaults, and their links come from the frame. -/
lemma addDefault_slice_rows (df : Frame) (name : String) (a b : Nat)
    (hS : df.hasStatus = false) (hF : df.hasFeedback = false)
    (hV : df.hasVerifiedBy = false) :
    ∀ r ∈ (addDefaultCols (frameSlice df a b) name).rows,
      r.status = "" ∧ r.feedback = "" ∧ r.verified_by = name ∧
        ∃ r₀ ∈ df.rows, r.link = r₀.link := by
  intro r hr
  unfold addDefaultCols frameSlice at hr
  simp only [hS, hF, hV, Bool.false_eq_true, if_false, List.mem_map] at hr
  obtain ⟨r₁, ⟨r₂, ⟨r₀, hr₀, rfl⟩, rfl⟩, rfl⟩ := hr
  refine ⟨rfl, rfl, rfl, r₀, ?_, rfl⟩
  exact List.drop_subset a df.rows (List.take_subset _ _ hr₀)

lemma pctSessionsSpec_sessions (users : Users) (total : Nat) (df : Frame) (now : Nat)
    (hS : df.hasStatus = false) (hF : df.hasFeedback = false)
    (hV : df.hasVerifiedBy = false) :
    ∀ (shares : List ShareReq) (cursor : Nat),
      ∀ s ∈ pctSessionsSpec users total df now shares cursor,
        ∀ r ∈ s.data, r.status = "" ∧ r.feedback = "" ∧ r.verified_by = s.name ∧
          ∃ r₀ ∈ df.rows, r.link = r₀.link := by
  intro shares
  induction shares with
  | nil => intro cursor s hs; simp [pctSessionsSpec] at hs
  | cons a rest ih =>
      intro cursor s hs
      cases hf : findUser users a.userId with
      | none =>
          rw [pctSessionsSpec, hf] at hs
          exact ih _ s hs
      | some user =>
          rw [pctSessionsSpec, hf] at hs
          rcases List.mem_cons.mp hs with rfl | hs'
          · intro r hr
            exact addDefault_slice_rows df user.name _ _ hS hF hV r hr
          · exact ih _ s hs'

lemma processRangeShares_sessions (users : Users) (total : Nat) (df : Frame) (now : Nat)
    (hS : df.hasStatus = false) (hF : df.hasFeedback = false)
    (hV : df.hasVerifiedBy = false) :
    ∀ (shares : List ShareReq) (store S : SessionStore),
      (processRangeShares users total df now shares store = .ok S ∨
        ∃ m, processRangeShares users total df now shares store = .error (m, S)) →
      ∀ s ∈ S, s ∈ store ∨
        ∀ r ∈ s.data, r.status = "" ∧ r.feedback = "" ∧ r.verified_by = s.name ∧
          ∃ r₀ ∈ df.rows, r.link = r₀.link := by
  intro shares
  induction shares with
  | nil =>
      intro store S h s hs
      rcases h with h | ⟨m, h⟩
      · rw [processRangeShares] at h
        cases h
        exact Or.inl hs
      · rw [processRangeShares] at h
        cases h
  | cons a rest ih =>
      intro store S h s hs
      cases hf : findUser users a.userId with
      | none =>
          refine ih store S ?_ s hs
          rcases h with h | ⟨m, h⟩
          · simp only [processRangeShares, hf] at h; exact Or.inl h
          · simp only [processRangeShares, hf] at h; exact Or.inr ⟨m, h⟩
      | some user =>
          by_cases h1 : a.startRange < 1 ∨ a.endRange < 1
          · rcases h with h | ⟨m, h⟩
            · simp only [processRangeShares, hf] at h; rw [if_pos h1] at h; cases h
            · simp only [processRangeShares, hf] at h
              rw [if_pos h1] at h
              cases h
              exact Or.inl hs
          · by_cases h2 : a.startRange > (total : Int) ∨ a.endRange > (total : Int)
            · rcases h with h | ⟨m, h⟩
              · simp only [processRangeShares, hf] at h
                rw [if_neg h1, if_pos h2] at h; cases h
              · simp only [processRangeShares, hf] at h
                rw [if_neg h1, if_pos h2] at h
                cases h
                exact Or.inl hs
            · by_cases h3 : a.startRange > a.endRange
              · rcases h with h | ⟨m, h⟩
                · simp only [processRangeShares, hf] at h
                  rw [if_neg h1, if_neg h2, if_pos h3] at h
                  cases h
                · simp only [processRangeShares, hf] at h
                  rw [if_neg h1, if_neg h2, if_pos h3] at h
                  cases h
                  exact Or.inl hs
              · have h' : processRangeShares users total df now rest
                    (store ++ [⟨user.username, user.name,
                      (addDefaultCols
                        (frameSlice df (a.startRange - 1).toNat a.endRange.toNat)
                        user.name).rows, true, now + SESSION_TIMEOUT⟩]) = .ok S ∨
                    ∃ m, processRangeShares users total df now rest
                      (store ++ [⟨user.username, user.name,
                        (addDefaultCols
                          (frameSlice df (a.startRange - 1).toNat a.endRange.toNat)
                          user.name).rows, true, now + SESSION_TIMEOUT⟩]) =
                        .error (m, S) := by
                  rcases h with h | ⟨m, h⟩
                  · simp only [processRangeShares, hf] at h
                    rw [if_neg h1, if_neg h2, if_neg h3] at h
                    exact Or.inl h
                  · simp only [processRangeShares, hf] at h
                    rw [if_neg h1, if_neg h2, if_neg h3] at h
                    exact Or.inr ⟨m, h⟩
                rcases ih _ S h' s hs with hmem | hprop
                · rcases List.mem_append.mp hmem with hmem' | hmem'
                  · exact Or.inl hmem'
                  · right
                    intro r hr
                    rw [List.mem_singleton] at hmem'
                    subst hmem'
                    exact addDefault_slice_rows df user.name _ _ hS hF hV r hr
                · exact Or.inr hprop

/-- C9, as stated, is false: the optional columns are only defaulted when
missing from the uploaded CSV.  An uploaded file that already has a `Status`
column keeps its values: assigning the one-row file with `Status =
"Accepted"` yields a materialized row whose status is not `""`. -/
theorem claim9_counterexample :
    ¬ (∀ s ∈ (admin_upload_and_assign abcUsers [] []
          ⟨[⟨"x", "Accepted", "", ""⟩], true, false, false⟩
          [⟨"A", 100, 0, 0⟩] .percentage 0).store,
        ∀ r ∈ s.data, r.status = "") := by
  decide

/-- C9 (amended): when the uploaded CSV has none of the optional columns
`Status` / `Feedback` / `Verified By`, every session added by the admin
upload (either mode) holds rows with `Status = ""`, `Feedback = ""`,
`Verified By` equal to the assigned reviewer's display name, and a link
taken verbatim from the `new_links` classification result (an uploaded file
carrying those columns keeps its pre-existing values instead, and a
duplicated new link materializes once per matching row). -/
theorem claim9_materialized_rows (users : Users) (registry : Registry)
    (store : SessionStore) (frame : Frame) (shares : List ShareReq)
    (mode : AssignMode) (now : Nat)
    (hS : frame.hasStatus = false) (hF : frame.hasFeedback = false)
    (hV : frame.hasVerifiedBy = false) :
    ∀ s ∈ (admin_upload_and_assign users registry store frame shares mode now).store,
      s ∈ store ∨
      ∀ r ∈ s.data, r.status = "" ∧ r.feedback = "" ∧ r.verified_by = s.name ∧
        r.link ∈ (check_global_duplicates (frame.rows.map (fun x => x.link))
          registry).new_links := by
  intro s hs
  by_cases hC : usersWithAssignments users store now (shares.map (fun a => a.userId)) ≠ []
  · have hst : (admin_upload_and_assign users registry store frame shares mode now).store =
        store := by
      simp only [admin_upload_and_assign]
      rw [if_pos hC]
    rw [hst] at hs
    exact Or.inl hs
  · have hrows : ∀ r₀ ∈ frame.rows.filter (fun x => decide (x.link ∈
        (check_global_duplicates (frame.rows.map (fun x => x.link))
          registry).new_links)), r₀.link ∈
        (check_global_duplicates (frame.rows.map (fun x => x.link))
          registry).new_links := by
      intro r₀ hr₀
      simpa using (List.mem_filter.mp hr₀).2
    have hflags : ({ frame with rows := frame.rows.filter (fun x => decide (x.link ∈
        (check_global_duplicates (frame.rows.map (fun x => x.link))
          registry).new_links)) } : Frame).hasStatus = false ∧
        ({ frame with rows := frame.rows.filter (fun x => decide (x.link ∈
          (check_global_duplicates (frame.rows.map (fun x => x.link))
            registry).new_links)) } : Frame).hasFeedback = false ∧
        ({ frame with rows := frame.rows.filter (fun x => decide (x.link ∈
          (check_global_duplicates (frame.rows.map (fun x => x.link))
            registry).new_links)) } : Frame).hasVerifiedBy = false :=
      ⟨hS, hF, hV⟩
    cases mode with
    | percentage =>
        have hst : (admin_upload_and_assign users registry store frame shares
            .percentage now).store =
            processPctShares users
              (frame.rows.filter (fun x => decide (x.link ∈
                (check_global_duplicates (frame.rows.map (fun x => x.link))
                  registry).new_links))).length
              { frame with rows := frame.rows.filter (fun x => decide (x.link ∈
                  (check_global_duplicates (frame.rows.map (fun x => x.link))
                    registry).new_links)) }
              now shares 0 store := by
          simp only [admin_upload_and_assign]
          rw [if_neg hC]
        rw [hst, processPctShares_eq_spec] at hs
        rcases List.mem_append.mp hs with hmem | hmem
        · exact Or.inl hmem
        · right
          intro r hr
          have h := pctSessionsSpec_sessions _ _ _ _ hflags.1 hflags.2.1 hflags.2.2 _ _
            s hmem r hr
          obtain ⟨h1, h2, h3, r₀, hr₀, hlink⟩ := h
          exact ⟨h1, h2, h3, hlink ▸ hrows r₀ hr₀⟩
    | range =>
        cases hP : processRangeShares users
            (frame.rows.filter (fun x => decide (x.link ∈
              (check_global_duplicates (frame.rows.map (fun x => x.link))
                registry).new_links))).length
            { frame with rows := frame.rows.filter (fun x => decide (x.link ∈
                (check_global_duplicates (frame.rows.map (fun x => x.link))
                  registry).new_links)) }
            now shares store with
        | ok S =>
            have hst : (admin_upload_and_assign users registry store frame shares
                .range now).store = S := by
              simp only [admin_upload_and_assign]
              rw [if_neg hC, hP]
            rw [hst] at hs
            have h := processRangeShares_sessions _ _ _ _ hflags.1 hflags.2.1 hflags.2.2
              shares store S (Or.inl hP) s hs
            rcases h with hmem | hprop
            · exact Or.inl hmem
            · right
              intro r hr
              obtain ⟨h1, h2, h3, r₀, hr₀, hlink⟩ := hprop r hr
              exact ⟨h1, h2, h3, hlink ▸ hrows r₀ hr₀⟩
        | error p =>
            obtain ⟨m, S⟩ := p
            have hst : (admin_upload_and_assign users registry store frame shares
                .range now).store = S := by
              simp only [admin_upload_and_assign]
              rw [if_neg hC, hP]
            rw [hst] at hs
            have h := processRangeShares_sessions _ _ _ _ hflags.1 hflags.2.1 hflags.2.2
              shares store S (Or.inr ⟨m, hP⟩) s hs
            rcases h with hmem | hprop
            · exact Or.inl hmem
            · right
              intro r hr
              obtain ⟨h1, h2, h3, r₀, hr₀, hlink⟩ := hprop r hr
              exact ⟨h1, h2, h3, hlink ▸ hrows r₀ hr₀⟩

/-- Witness for C9 at a concrete input: a columnless one-row file assigned
fully to Alice. -/
theorem claim9_witness :
    ((⟨[⟨"x", "", "", ""⟩], false, false, false⟩ : Frame).hasStatus = false ∧
      (⟨[⟨"x", "", "", ""⟩], false, false, false⟩ : Frame).hasFeedback = false ∧
      (⟨[⟨"x", "", "", ""⟩], false, false, false⟩ : Frame).hasVerifiedBy = false) ∧
    (∀ s ∈ (admin_upload_and_assign abcUsers [] []
          ⟨[⟨"x", "", "", ""⟩], false, false, false⟩
          [⟨"A", 100, 0, 0⟩] .percentage 0).store,
        s ∈ ([] : SessionStore) ∨
        ∀ r ∈ s.data, r.status = "" ∧ r.feedback = "" ∧ r.verified_by = s.name ∧
          r.link ∈ (check_global_duplicates
            ((⟨[⟨"x", "", "", ""⟩], false, false, false⟩ : Frame).rows.map
              (fun x => x.link)) []).new_links) :=
  ⟨⟨rfl, rfl, rfl⟩,
    claim9_materialized_rows abcUsers [] [] ⟨[⟨"x", "", "", ""⟩], false, false, false⟩
      [⟨"A", 100, 0, 0⟩] .percentage 0 rfl rfl rfl⟩

/-! ## Claim C10: unknown users in percentage mode -/

/-- Shares whose user id is unknown contribute nothing to the percentage
plan: the plan equals the plan of the known-user shares alone. -/
lemma pctSessionsSpec_filter_known (users : Users) (total : Nat) (df : Frame)
    (now : Nat) :
    ∀ (shares : List ShareReq) (cursor : Nat),
      pctSessionsSpec users total df now
          (shares.filter (fun a => (findUser users a.userId).isSome)) cursor =
        pctSessionsSpec users total df now shares cursor := by
  intro shares
  induction shares with
  | nil => intro cursor; rfl
  | cons a rest ih =>
      intro cursor
      cases hf : findUser users a.userId with
      | none =>
          rw [pctSessionsSpec, hf]
          simpa [List.filter_cons, hf] using ih cursor
      | some user =>
          rw [pctSessionsSpec, hf]
          simp only [List.filter_cons, hf, Option.isSome_some, if_pos]
          rw [pctSessionsSpec, hf]
          exact congrArg _ (ih _)

/-- C10, as stated, is false: a percentage share with an unknown user id is
silently skipped — no `ValidationError` (nor any error) is reported — while
the remaining shares are still assigned.  Here the unknown user `"Z"` gets
nothing, Bob still gets his 2 of 4 rows, and the response error is `none`. -/
theorem claim10_counterexample :
    (admin_upload_and_assign abcUsers [] []
        ⟨[⟨"1", "", "", ""⟩, ⟨"2", "", "", ""⟩, ⟨"3", "", "", ""⟩, ⟨"4", "", "", ""⟩],
          false, false, false⟩
        [⟨"Z", 50, 0, 0⟩, ⟨"B", 50, 0, 0⟩] .percentage 0).error = none ∧
    ((admin_upload_and_assign abcUsers [] []
        ⟨[⟨"1", "", "", ""⟩, ⟨"2", "", "", ""⟩, ⟨"3", "", "", ""⟩, ⟨"4", "", "", ""⟩],
          false, false, false⟩
        [⟨"Z", 50, 0, 0⟩, ⟨"B", 50, 0, 0⟩] .percentage 0).store.map
        (fun s => (s.name, s.data.length))) = [("Bob", 2)] := by
  decide

/-- C10 (amended): in percentage mode a share whose user id is unknown is
skipped without any error being reported (the response error is `none`
whenever the admin-session guard passes), and the resulting assignments
equal those of the batch with the unknown-user shares omitted. -/
theorem claim10_unknown_user_skip (users : Users) (registry : Registry)
    (store : SessionStore) (frame : Frame) (shares : List ShareReq) (now : Nat)
    (hG : usersWithAssignments users store now (shares.map (fun a => a.userId)) = []) :
    (admin_upload_and_assign users registry store frame shares .percentage now).error =
      none ∧
    (admin_upload_and_assign users registry store frame shares .percentage now).store =
      store ++
        pctSessionsSpec users
          (frame.rows.filter (fun x => decide (x.link ∈
            (check_global_duplicates (frame.rows.map (fun x => x.link))
              registry).new_links))).length
          { frame with rows := frame.rows.filter (fun x => decide (x.link ∈
              (check_global_duplicates (frame.rows.map (fun x => x.link))
                registry).new_links)) }
          now (shares.filter (fun a => (findUser users a.userId).isSome)) 0 := by
  have hC : ¬ (usersWithAssignments users store now
      (shares.map (fun a => a.userId)) ≠ []) := fun h => h hG
  constructor
  · simp only [admin_upload_and_assign]
    rw [if_neg hC]
  · simp only [admin_upload_and_assign]
    rw [if_neg hC]
    show processPctShares _ _ _ _ _ 0 store = _
    rw [processPctShares_eq_spec, pctSessionsSpec_filter_known]

/-- Witness for C10 at the counterexample's input (empty session store, so
the guard passes). -/
theorem claim10_witness :
    usersWithAssignments abcUsers [] 0
        ([(⟨"Z", 50, 0, 0⟩ : ShareReq), ⟨"B", 50, 0, 0⟩].map (fun a => a.userId)) = [] ∧
    (admin_upload_and_assign abcUsers [] []
        ⟨[⟨"1", "", "", ""⟩, ⟨"2", "", "", ""⟩, ⟨"3", "", "", ""⟩, ⟨"4", "", "", ""⟩],
          false, false, false⟩
        [⟨"Z", 50, 0, 0⟩, ⟨"B", 50, 0, 0⟩] .percentage 0).error = none :=
  ⟨by decide,
    (claim10_unknown_user_skip abcUsers [] []
      ⟨[⟨"1", "", "", ""⟩, ⟨"2", "", "", ""⟩, ⟨"3", "", "", ""⟩, ⟨"4", "", "", ""⟩],
        false, false, false⟩
      [⟨"Z", 50, 0, 0⟩, ⟨"B", 50, 0, 0⟩] 0 (by decide)).1⟩

end Viewer
